import Mathlib

set_option maxRecDepth 8000

/-!
Verification of the gsat machine-interface layer: a shallow embedding of
the two firmware adapters of the repository,
src/modules/grbl_machif.py (class MachIf_GRBL) and
src/modules/g2core_machif.py (class MachIf_g2core).

The regular expressions of the source are embedded as executable
backtracking matchers over List Char with exactly the Python 2 re
semantics they rely on (greedy quantifiers, anchored re.match, the
dollar anchor matching at the end or before one trailing newline, the
dot matching anything but a newline).  The mutable buffer-accounting
attributes (inputBufferSize and the pending-length FIFO
inputBufferPart) become explicit state records threaded through encode
and decode.  Wall-clock scheduling (autoStatusNextMicro), verbose
printing and the machinePositionMode attribute never feed back into
buffer accounting and are outside the modelled state.
-/

/-- Python 2 regex class backslash-s: space, tab, newline, carriage return,
form feed, vertical tab (also the character set of Python 2 str.strip). -/
def isPySpace (c : Char) : Bool :=
  c == ' ' || c == '\t' || c == '\n' || c == '\r' || c == '\x0c' || c == '\x0b'

/-- Python 2 regex class backslash-w without re.UNICODE: ascii letters,
digits, underscore. -/
def isWordChar (c : Char) : Bool := c.isAlpha || c.isDigit || c == '_'

/-- Python 2 regex class backslash-d, and the character test behind
str.isdigit for ascii text. -/
def isPyDigit (c : Char) : Bool := c.isDigit

/-- The regex dot: any character except a newline. -/
def notNL (c : Char) : Bool := c != '\n'

/-- The Python dollar anchor without re.MULTILINE: it matches at the end of
the input or just before one trailing newline. -/
def atDollar (l : List Char) : Bool := l == [] || l == ['\n']

/-- Match one character of a class, continuation style. -/
def clsM (p : Char → Bool) : List Char → (List Char → Option α) → Option α
  | c :: s, k => if p c then k s else none
  | [], _ => none

/-- Greedy star over a character class, with backtracking: longer
consumptions are tried first, as the Python engine does. -/
def starM (p : Char → Bool) : List Char → (List Char → Option α) → Option α
  | c :: s, k => if p c then starM p s k <|> k (c :: s) else k (c :: s)
  | [], k => k []

/-- Greedy plus over a character class. -/
def plusM (p : Char → Bool) (s : List Char) (k : List Char → Option α) : Option α :=
  clsM p s fun s' => starM p s' k

/-- Greedy optional character (the present case is tried first). -/
def optM (p : Char → Bool) (s : List Char) (k : List Char → Option α) : Option α :=
  clsM p s k <|> k s

/-- A literal character sequence. -/
def strM : List Char → List Char → (List Char → Option α) → Option α
  | [], s, k => k s
  | c :: cs, s, k => clsM (fun x => x == c) s fun s' => strM cs s' k

/-- Greedy capturing star: the continuation also receives the consumed
characters, so that a capture group around the quantifier can be formed. -/
def capStarAux (p : Char → Bool) (acc : List Char) :
    List Char → (List Char → List Char → Option α) → Option α
  | c :: s, k =>
      if p c then capStarAux p (acc ++ [c]) s k <|> k acc (c :: s)
      else k acc (c :: s)
  | [], k => k acc []

/-- Greedy capturing star starting from an empty capture. -/
def capStar (p : Char → Bool) (s : List Char) (k : List Char → List Char → Option α) :
    Option α :=
  capStarAux p [] s k

/-- Greedy capturing plus. -/
def capPlus (p : Char → Bool) (s : List Char) (k : List Char → List Char → Option α) :
    Option α :=
  match s with
  | c :: s' => if p c then capStarAux p [c] s' k else none
  | [] => none

/-- The capturing numeral group of the GRBL status regex: an optional sign,
one or more digits, a dot, one or more digits. -/
def capNum (s : List Char) (k : List Char → List Char → Option α) : Option α :=
  (match s with
   | c :: s' =>
       if c == '+' || c == '-' then
         capPlus isPyDigit s' fun d1 s1 =>
           clsM (fun x => x == '.') s1 fun s2 =>
             capPlus isPyDigit s2 fun d2 s3 => k (c :: (d1 ++ '.' :: d2)) s3
       else none
   | [] => none)
  <|> (capPlus isPyDigit s fun d1 s1 =>
        clsM (fun x => x == '.') s1 fun s2 =>
          capPlus isPyDigit s2 fun d2 s3 => k (d1 ++ '.' :: d2) s3)

/-- MachIf_GRBL.reGrblMachineStatus, used with re.match (anchored at the
start, the tail of the line is unconstrained).  Returns the six captured
groups: state word, the three position numerals, the two FS integers. -/
def reGrblMachineStatus (s : List Char) :
    Option (String × String × String × String × String × String) :=
  clsM (fun c => c == '<') s fun s1 =>
  capPlus isWordChar s1 fun g1 s2 =>
  optM (fun c => c == ':') s2 fun s3 =>
  starM isPyDigit s3 fun s4 =>
  clsM (fun c => c == ',' || c == '|') s4 fun s5 =>
  starM notNL s5 fun s6 =>
  clsM (fun c => c == 'W' || c == '|' || c == 'M') s6 fun s7 =>
  strM "Pos:".data s7 fun s8 =>
  capNum s8 fun g2 s9 =>
  clsM (fun c => c == ',') s9 fun s10 =>
  capNum s10 fun g3 s11 =>
  clsM (fun c => c == ',') s11 fun s12 =>
  capNum s12 fun g4 s13 =>
  strM "|FS:".data s13 fun s14 =>
  capPlus isPyDigit s14 fun g5 s15 =>
  clsM (fun c => c == ',') s15 fun s16 =>
  capPlus isPyDigit s16 fun g6 _ =>
  some (String.mk g1, String.mk g2, String.mk g3, String.mk g4,
        String.mk g5, String.mk g6)

/-- MachIf_GRBL.reGrblMachineAck, the pattern caret-ok-s-dollar used with
re.search: because of the caret the line must be exactly the two letters ok
plus one whitespace character, optionally followed by one final newline. -/
def reGrblMachineAck (l : List Char) : Bool :=
  match l with
  | c1 :: c2 :: w :: rest =>
      c1 == 'o' && c2 == 'k' && isPySpace w && (rest == [] || rest == ['\n'])
  | _ => false

/-- MachIf_GRBL.reGrblMachineError, the anchored pattern
error-colon-group-s-dollar; returns the captured (greedy, newline-free)
group between the colon and the final whitespace character. -/
def reGrblMachineError (l : List Char) : Option String :=
  strM "error:".data l fun s1 =>
  capStar notNL s1 fun g s2 =>
  clsM isPySpace s2 fun s3 =>
  if atDollar s3 then some (String.mk g) else none

/-- MachIf_GRBL.reGrblVersion, anchored: an opening bracket, VER, a colon,
the captured greedy group, a colon and a closing bracket. -/
def reGrblVersion (l : List Char) : Option String :=
  strM "[VER:".data l fun s1 =>
  capStar notNL s1 fun g s2 =>
  strM ":]".data s2 fun _ => some (String.mk g)

/-- MachIf_GRBL.reGrblInitStr (the startup banner), anchored: Grbl, spaces,
a greedy group, spaces, then a bracketed segment.  decode only uses whether
it matched. -/
def reGrblInitStr (l : List Char) : Bool :=
  (strM "Grbl".data l fun s1 =>
   starM isPySpace s1 fun s2 =>
   starM notNL s2 fun s3 =>
   starM isPySpace s3 fun s4 =>
   clsM (fun c => c == '[') s4 fun s5 =>
   starM notNL s5 fun s6 =>
   clsM (fun c => c == ']') s6 fun _ =>
   some ()).isSome

/-- Python substring test (pat in l).  MachIf_GRBL.reGrblAlarm is the
pattern ALARM-colon-dot-star used with re.search, which holds exactly when
the line contains the substring ALARM: anywhere. -/
def containsSub (pat : List Char) : List Char → Bool
  | [] => pat.isEmpty
  | c :: t => pat.isPrefixOf (c :: t) || containsSub pat t

/-- Numeric machine states of grbl_machif.py. -/
def GRBL_STATE_UKNOWN : Nat := 1000
def GRBL_STATE_IDLE : Nat := 1010
def GRBL_STATE_RUN : Nat := 1020
def GRBL_STATE_HOLD : Nat := 1030
def GRBL_STATE_JOG : Nat := 1040
def GRBL_STATE_ALRARM : Nat := 1050
def GRBL_STATE_DOOR : Nat := 1060
def GRBL_STATE_CHECK : Nat := 1070
def GRBL_STATE_HOME : Nat := 1080
def GRBL_STATE_SLEEP : Nat := 1090
def GRBL_STATE_STOP : Nat := 1100

/-- The grbl input-buffer capacity BUFFER_MAX_SIZE. -/
def BUFFER_MAX_SIZE : Int := 127

/-- MachIf_GRBL.stat_dict combined with the lookup-with-default used at its
only call sites, stat_dict.get(token, GRBL_STATE_UKNOWN). -/
def stat_dict_get (s : String) : Nat :=
  if s = "Idle" then GRBL_STATE_IDLE
  else if s = "Run" then GRBL_STATE_RUN
  else if s = "Hold" then GRBL_STATE_HOLD
  else if s = "Jog" then GRBL_STATE_JOG
  else if s = "Alarm" then GRBL_STATE_ALRARM
  else if s = "Door" then GRBL_STATE_DOOR
  else if s = "Check" then GRBL_STATE_CHECK
  else if s = "Home" then GRBL_STATE_HOME
  else if s = "Sleep" then GRBL_STATE_SLEEP
  else if s = "Stop" then GRBL_STATE_STOP
  else GRBL_STATE_UKNOWN

/-- The mutable attributes of MachIf_GRBL that take part in buffer
accounting and status tracking.  Sizes are integers, as in Python, so that
the no-underflow claims are not made vacuous by the type. -/
structure GrblState where
  inputBufferSize : Int
  inputBufferPart : List Int
  machineStatus : Nat
  initStringDetectFlag : Bool
deriving Repr, DecidableEq

/-- The state right after construction or _init.  The buffer start value 0
and the empty pending list are the constants BUFFER_INIT_VAL and
list() of grbl_machif.py (the base-class _reset that stores them lives in
modules/machif.py, which is not among the sources; the spec fixes reset to
zero used and an empty queue). -/
def grblInitState : GrblState :=
  { inputBufferSize := 0, inputBufferPart := [], machineStatus := GRBL_STATE_UKNOWN,
    initStringDetectFlag := false }

/-- The sr facet of a decoded GRBL dict: the raw captured state token and
numerals (Python converts the numerals with float(); no claim inspects the
numeric values, so the matched lexemes are kept). -/
structure GrblSr where
  stat : String
  posx : Option String := none
  posy : Option String := none
  posz : Option String := none
  vel : Option String := none
deriving Repr, DecidableEq

/-- The f facet of a decoded GRBL dict: the lists [0, code, bufferPart] and
[0, error_code, bufferPart, message] of the source, with the optional
fourth element as msg. -/
structure GrblF where
  fa : Int
  code : Int
  freed : Int
  msg : Option String
deriving Repr, DecidableEq

/-- The dict returned by MachIf_GRBL.decode: the optional facets it may
populate.  hasR records the presence of the r key; fb its fb entry. -/
structure GrblDict where
  sr : Option GrblSr := none
  hasR : Bool := false
  fb : Option String := none
  f : Option GrblF := none
  ib : Option (Int × Int) := none
deriving Repr, DecidableEq

/-- MachIf_GRBL.encode.  oobCmds stands for the two-element list
[self.getCycleStartCmd(), self.getFeedHoldCmd()] whose getters live in the
base class modules/machif.py, not among the sources (Modelled from the
spec: the out-of-band cycle-start and feed-hold control commands bypass
buffer accounting).  The ascii re-encoding is the identity on the modelled
text; machinePositionMode tracking and verbose printing touch no modelled
state and are omitted. -/
def MachIf_GRBL.encode (oobCmds : List String) (s : GrblState) (data : String)
    (bookeeping : Bool) : String × GrblState :=
  if data.length = 0 then (data, s)
  else
    let hasQ : Bool := data.data.contains '?'
    let t : String :=
      if hasQ then String.mk (data.data.filter (fun c => c != '?') ++ ['?']) else data
    let s1 : GrblState :=
      if hasQ && bookeeping then { s with inputBufferSize := s.inputBufferSize + 1 } else s
    if t == "?" && bookeeping then (t, s1)
    else if oobCmds.contains t then (t, s1)
    else if bookeeping then
      (t, { s1 with inputBufferSize := s1.inputBufferSize + t.length,
                    inputBufferPart := s1.inputBufferPart ++ [(t.length : Int)] })
    else (t, s1)

/-- The status branch of MachIf_GRBL.decode: on a match, remove one byte
for the status-poll character when at least one byte is tracked, fill the
sr facet from the captured groups, and set machineStatus through the
status table (the auto-refresh deadline written on Run and Jog is
wall-clock state, outside the model). -/
def MachIf_GRBL.decodeStatus (s : GrblState) (l : List Char) : GrblDict × GrblState :=
  match reGrblMachineStatus l with
  | some (g1, g2, g3, g4, g5, _) =>
      let s' :=
        if 1 ≤ s.inputBufferSize then { s with inputBufferSize := s.inputBufferSize - 1 }
        else s
      ({ sr := some { stat := g1, posx := some g2, posy := some g3, posz := some g4,
                      vel := some g5 } },
       { s' with machineStatus := stat_dict_get g1 })
  | none => ({}, s)

/-- The acknowledgement branch of MachIf_GRBL.decode: pop the oldest
pending length when the FIFO is non-empty (zero otherwise), subtract it,
and fill the r, f and ib facets. -/
def MachIf_GRBL.decodeAck (ds : GrblDict × GrblState) (l : List Char) :
    GrblDict × GrblState :=
  if reGrblMachineAck l then
    let p : Int := ds.2.inputBufferPart.headD 0
    let s' : GrblState :=
      { ds.2 with inputBufferSize := ds.2.inputBufferSize - p,
                  inputBufferPart := ds.2.inputBufferPart.tail }
    ({ ds.1 with hasR := true, f := some ⟨0, 0, p, none⟩,
                 ib := some (BUFFER_MAX_SIZE, s'.inputBufferSize) }, s')
  else ds

/-- The alarm branch of MachIf_GRBL.decode: force the sr stat facet to
Alarm (the locally computed decodedStatus is never stored). -/
def MachIf_GRBL.decodeAlarm (ds : GrblDict × GrblState) (l : List Char) :
    GrblDict × GrblState :=
  if containsSub "ALARM:".data l then
    let sr : GrblSr :=
      match ds.1.sr with
      | some sr => { sr with stat := "Alarm" }
      | none => { stat := "Alarm" }
    ({ ds.1 with sr := some sr }, ds.2)
  else ds

/-- Python 2 str.strip with no argument: drop leading and trailing
whitespace. -/
def pyStrip (s : String) : String :=
  String.mk (((s.data.dropWhile isPySpace).reverse.dropWhile isPySpace).reverse)

/-- Python 2 str.isdigit: non-empty and all digits. -/
def pyIsdigit (s : String) : Bool := !s.data.isEmpty && s.data.all isPyDigit

/-- Python int() on a string of digits. -/
def digitsVal (l : List Char) : Nat :=
  l.foldl (fun a c => a * 10 + (c.toNat - '0'.toNat)) 0

/-- The error branch of MachIf_GRBL.decode: pop the oldest pending length
when the FIFO is non-empty (zero otherwise), subtract it, and fill the f
facet with [0, numeric-or-minus-one code, popped length, stripped text]. -/
def MachIf_GRBL.decodeError (ds : GrblDict × GrblState) (l : List Char) :
    GrblDict × GrblState :=
  match reGrblMachineError l with
  | some g =>
      let p : Int := ds.2.inputBufferPart.headD 0
      let s' : GrblState :=
        { ds.2 with inputBufferSize := ds.2.inputBufferSize - p,
                    inputBufferPart := ds.2.inputBufferPart.tail }
      let ec : Int := if pyIsdigit (pyStrip g) then (digitsVal (pyStrip g).data : Int) else -1
      ({ ds.1 with hasR := true, f := some ⟨0, ec, p, some (pyStrip g)⟩,
                   ib := some (BUFFER_MAX_SIZE, s'.inputBufferSize) }, s')
  | none => ds

/-- The version branch of MachIf_GRBL.decode: record the firmware version
in the r facet and reset the f facet to [0, 0, 0]. -/
def MachIf_GRBL.decodeVersion (ds : GrblDict × GrblState) (l : List Char) :
    GrblDict × GrblState :=
  match reGrblVersion l with
  | some g =>
      ({ ds.1 with hasR := true, fb := some g, f := some ⟨0, 0, 0, none⟩,
                   ib := some (BUFFER_MAX_SIZE, ds.2.inputBufferSize) }, ds.2)
  | none => ds

/-- The init-banner branch of MachIf_GRBL.decode: raise the detect flag. -/
def MachIf_GRBL.decodeInit (ds : GrblDict × GrblState) (l : List Char) :
    GrblDict × GrblState :=
  if reGrblInitStr l then (ds.1, { ds.2 with initStringDetectFlag := true }) else ds

/-- MachIf_GRBL.decode: the six independent pattern branches of the source,
applied in source order to one incoming line. -/
def MachIf_GRBL.decode (s : GrblState) (data : String) : GrblDict × GrblState :=
  MachIf_GRBL.decodeInit
    (MachIf_GRBL.decodeVersion
      (MachIf_GRBL.decodeError
        (MachIf_GRBL.decodeAlarm
          (MachIf_GRBL.decodeAck (MachIf_GRBL.decodeStatus s data.data) data.data)
          data.data) data.data) data.data) data.data

/-- JSON-ish dynamic values for the g2core decoder.  A number keeps its
integer part and the remaining numeric lexeme (fraction and exponent,
empty for an integer literal). -/
inductive JVal where
  | null
  | bool (b : Bool)
  | num (i : Int) (rest : String)
  | str (s : String)
  | arr (elems : List JVal)
  | obj (fields : List (String × JVal))
deriving Repr

/-- The whitespace the JSON grammar skips between tokens. -/
def jsonWs (c : Char) : Bool := c == ' ' || c == '\t' || c == '\n' || c == '\r'

/-- Skip JSON inter-token whitespace. -/
def skipWs (l : List Char) : List Char := l.dropWhile jsonWs

/-- The content of a JSON string after the opening quote: returns the
decoded characters and the rest after the closing quote.  Simple escapes
are decoded; a unicode escape keeps its letters verbatim (no claim
inspects string contents through it). -/
def parseStrAux : List Char → Option (List Char × List Char)
  | [] => none
  | '"' :: t => some ([], t)
  | '\\' :: c :: t =>
      (parseStrAux t).map fun (cs, r) =>
        (((if c == 'n' then '\n' else if c == 't' then '\t' else if c == 'r' then '\r'
           else if c == 'b' then '\x08' else if c == 'f' then '\x0c' else c) :: cs), r)
  | c :: t => (parseStrAux t).map fun (cs, r) => (c :: cs, r)

/-- A JSON numeral: optional minus, digits, optional fraction and
exponent.  The integer part is evaluated; fraction and exponent are kept
as a lexeme. -/
def parseNumAux (l : List Char) : Option (JVal × List Char) :=
  let (neg, l1) := match l with | '-' :: t => (true, t) | _ => (false, l)
  let ds := l1.takeWhile isPyDigit
  let r1 := l1.drop ds.length
  if ds.isEmpty then none
  else
    let (fr, r2) :=
      match r1 with
      | '.' :: t =>
          let fd := t.takeWhile isPyDigit
          if fd.isEmpty then (([] : List Char), r1) else ('.' :: fd, t.drop fd.length)
      | _ => ([], r1)
    let (ex, r3) :=
      match r2 with
      | 'e' :: t =>
          let (sg, t1) := match t with | '+' :: u => (['e', '+'], u) | '-' :: u => (['e', '-'], u) | _ => (['e'], t)
          let ed := t1.takeWhile isPyDigit
          if ed.isEmpty then (([] : List Char), r2) else (sg ++ ed, t1.drop ed.length)
      | 'E' :: t =>
          let (sg, t1) := match t with | '+' :: u => (['E', '+'], u) | '-' :: u => (['E', '-'], u) | _ => (['E'], t)
          let ed := t1.takeWhile isPyDigit
          if ed.isEmpty then (([] : List Char), r2) else (sg ++ ed, t1.drop ed.length)
      | _ => ([], r2)
    some (JVal.num ((if neg then -1 else 1) * (digitsVal ds : Int)) (String.mk (fr ++ ex)), r3)

mutual

/-- Recursive-descent JSON value reader with fuel (one unit per opened
construct; the fuel passed by jsonLoads is provably ample). -/
def parseJ : Nat → List Char → Option (JVal × List Char)
  | 0, _ => none
  | fuel + 1, l0 =>
    match skipWs l0 with
    | '{' :: t =>
        (match skipWs t with
         | '}' :: r => some (.obj [], r)
         | t2 => (parseMembers fuel t2).map fun (fs, r) => (.obj fs, r))
    | '[' :: t =>
        (match skipWs t with
         | ']' :: r => some (.arr [], r)
         | t2 => (parseElems fuel t2).map fun (xs, r) => (.arr xs, r))
    | '"' :: t => (parseStrAux t).map fun (cs, r) => (.str (String.mk cs), r)
    | 't' :: t => if "rue".data.isPrefixOf t then some (.bool true, t.drop 3) else none
    | 'f' :: t => if "alse".data.isPrefixOf t then some (.bool false, t.drop 4) else none
    | 'n' :: t => if "ull".data.isPrefixOf t then some (.null, t.drop 3) else none
    | l => parseNumAux l

/-- One or more comma-separated members of a JSON object, up to the
closing brace. -/
def parseMembers : Nat → List Char → Option (List (String × JVal) × List Char)
  | 0, _ => none
  | fuel + 1, l =>
    match skipWs l with
    | '"' :: t =>
      (match parseStrAux t with
       | some (k, r1) =>
         (match skipWs r1 with
          | ':' :: r2 =>
            (match parseJ fuel r2 with
             | some (v, r3) =>
               (match skipWs r3 with
                | ',' :: r4 =>
                    (parseMembers fuel r4).map fun (fs, r5) => ((String.mk k, v) :: fs, r5)
                | '}' :: r4 => some ([(String.mk k, v)], r4)
                | _ => none)
             | none => none)
          | _ => none)
       | none => none)
    | _ => none

/-- One or more comma-separated elements of a JSON array, up to the
closing bracket. -/
def parseElems : Nat → List Char → Option (List JVal × List Char)
  | 0, _ => none
  | fuel + 1, l =>
    match parseJ fuel l with
    | some (v, r) =>
      (match skipWs r with
       | ',' :: r2 => (parseElems fuel r2).map fun (xs, r3) => (v :: xs, r3)
       | ']' :: r2 => some ([v], r2)
       | _ => none)
    | none => none

end

/-- Modelled from the spec: MachIf_g2core.decode first runs the line
through json.loads of the Python standard library (not among the sources;
the spec only says the line is parsed as JSON).  Whole-input JSON reading:
success requires the value plus trailing whitespace to consume the line.
The leading-zero restriction on numerals and NaN and Infinity literals are
not mirrored; no claim depends on them. -/
def jsonLoads (data : String) : Option JVal :=
  match parseJ (data.length + 1) data.data with
  | some (v, r) => if skipWs r = [] then some v else none
  | none => none

/-- Python key-in-value for the dynamic values the decoder can hold:
key lookup on a dict, substring test on a string, membership on a list;
a TypeError (modelled as the error case) on numbers, booleans and None. -/
def pyIn (key : String) : JVal → Except Unit Bool
  | .obj fs => .ok (fs.any fun kv => kv.1 == key)
  | .str s => .ok (containsSub key.data s.data)
  | .arr xs => .ok (xs.any fun x => match x with | .str s => s == key | _ => false)
  | _ => .error ()

/-- Python subscript read value[key] with a string key: only a dict
succeeds (KeyError on a missing key, TypeError on any other type). -/
def pyGet (v : JVal) (key : String) : Except Unit JVal :=
  match v with
  | .obj fs =>
      (match fs.lookup key with
       | some x => .ok x
       | none => .error ())
  | _ => .error ()

/-- Replace-or-append on an association list, keeping the position of an
existing key, as Python dict assignment does. -/
def pySetKey : List (String × JVal) → String → JVal → List (String × JVal)
  | [], k, v => [(k, v)]
  | (k', v') :: fs, k, v =>
      if k' == k then (k, v) :: fs else (k', v') :: pySetKey fs k v

/-- Python subscript assignment value[key] = x with a string key: only a
dict succeeds. -/
def pySet (d : JVal) (key : String) (v : JVal) : Except Unit JVal :=
  match d with
  | .obj fs => .ok (.obj (pySetKey fs key v))
  | _ => .error ()

/-- The stat translation chain of MachIf_g2core.decode: the numeric codes
0 to 13 get a name (including the misspelt Homeming of the source at 9);
any other code is left untouched by the chain, which has no final else. -/
def g2StatName (n : Int) : Option String :=
  if n = 0 then some "Init"
  else if n = 1 then some "Ready"
  else if n = 2 then some "Alarm"
  else if n = 3 then some "Prog Stop"
  else if n = 4 then some "Prog End"
  else if n = 5 then some "Run"
  else if n = 6 then some "Hold"
  else if n = 7 then some "Probe"
  else if n = 8 then some "Run"
  else if n = 9 then some "Homeming"
  else if n = 10 then some "Jog"
  else if n = 11 then some "InterLock"
  else if n = 12 then some "Shutdown"
  else if n = 13 then some "Panic"
  else none

/-- Lift a Python operation that can raise into the try-block monad whose
error value is the dataDict as it stands at the raise (Python keeps the
partially processed value in scope for the code after the handler). -/
def orRaise (d : JVal) : Except Unit β → Except JVal β
  | .ok b => .ok b
  | .error _ => .error d

/-- One legacy-field alias step of MachIf_g2core.decode: if src is a key
of the status report, copy its value to dst. -/
def g2Alias (d : JVal) (sr : JVal) (src dst : String) : Except JVal JVal := do
  let h ← orRaise d (pyIn src sr)
  if h then do
    let v ← orRaise d (pyGet sr src)
    orRaise d (pySet sr dst v)
  else pure sr

/-- The status-report block of MachIf_g2core.decode: translate an integer
stat code through the table, then apply the four legacy mpo aliases.
The Python comparison 0 == status also equates a float 5.0 with 5; the
model translates integer literals only, which no claim observes. -/
def g2ProcessSr (d : JVal) (sr0 : JVal) : Except JVal JVal := do
  let hasStat ← orRaise d (pyIn "stat" sr0)
  let sr1 ←
    (if hasStat then do
       let status ← orRaise d (pyGet sr0 "stat")
       (match status with
        | .num i r =>
          if r = "" then
            (match g2StatName i with
             | some nm => orRaise d (pySet sr0 "stat" (.str nm))
             | none => pure sr0)
          else pure sr0
        | _ => pure sr0)
     else pure sr0)
  let sr2 ← g2Alias d sr1 "mpox" "posx"
  let sr3 ← g2Alias d sr2 "mpoy" "posy"
  let sr4 ← g2Alias d sr3 "mpoz" "posz"
  g2Alias d sr4 "mpoa" "posa"

/-- The mutable buffer attributes of MachIf_g2core. -/
structure G2State where
  inputBufferSize : Int
  inputBufferPart : List Int
deriving Repr, DecidableEq

/-- The g2core state after construction or reset: capacity 255, zero used,
empty pending list. -/
def g2InitState : G2State := { inputBufferSize := 0, inputBufferPart := [] }

/-- The body of the try block of MachIf_g2core.decode, on a successfully
parsed value: hoist an embedded status report next to the response facet,
process it, attach the buffer facet.  The error value of the monad is the
dataDict at the raise point.  CPython aliasing makes the hoisted report
reachable both as the sr member and inside the r member; the in-place
mutation is mirrored by updating both places. -/
def g2TryBody (st : G2State) (d0 : JVal) : Except JVal JVal := do
  let hasR ← orRaise d0 (pyIn "r" d0)
  let hd1 ←
    (if hasR then do
       let r ← orRaise d0 (pyGet d0 "r")
       let hasSr ← orRaise d0 (pyIn "sr" r)
       if hasSr then do
         let sr ← orRaise d0 (pyGet r "sr")
         let d1 ← orRaise d0 (pySet d0 "sr" sr)
         pure (d1, true)
       else pure (d0, false)
     else pure (d0, false))
  let d1 := hd1.1
  let hoisted := hd1.2
  let hasSr ← orRaise d1 (pyIn "sr" d1)
  let d2 ←
    (if hasSr then do
       let sr ← orRaise d1 (pyGet d1 "sr")
       let sr' ← g2ProcessSr d1 sr
       let d2 ← orRaise d1 (pySet d1 "sr" sr')
       if hoisted then do
         let r ← orRaise d2 (pyGet d2 "r")
         let r' ← orRaise d2 (pySet r "sr" sr')
         orRaise d2 (pySet d2 "r" r')
       else pure d2
     else pure d1)
  orRaise d2 (pySet d2 "ib" (.arr [.num 255 "", .num st.inputBufferSize ""]))

/-- MachIf_g2core.reG2CoreMachineAck, the anchored pattern
dot-plus-ok-gt-s-dollar used with re.match. -/
def reG2CoreMachineAck (l : List Char) : Bool :=
  (clsM notNL l fun s1 =>
   starM notNL s1 fun s2 =>
   strM "ok>".data s2 fun s3 =>
   clsM isPySpace s3 fun s4 =>
   if atDollar s4 then some () else none).isSome

/-- The dict the except handler of MachIf_g2core.decode installs under the
r key on a text acknowledgement. -/
def g2AckRVal : JVal := .obj [("f", .arr [.num 1 "", .num 0 "", .num 0 ""])]

/-- MachIf_g2core.decode.  The result is an error exactly when the Python
code would raise out of decode: the try only protects the JSON processing,
while the final r-membership test and the handler's own subscript
assignment run unprotected. -/
def MachIf_g2core.decode (st : G2State) (data : String) :
    Except String (JVal × G2State) :=
  let handler (dErr : JVal) : Except String JVal :=
    if reG2CoreMachineAck data.data then
      match pySet dErr "r" g2AckRVal with
      | .ok d => .ok d
      | .error _ => .error "TypeError: item assignment in handler"
    else .ok dErr
  let afterTry : Except String JVal :=
    match jsonLoads data with
    | none => handler (.obj [])
    | some v =>
      match g2TryBody st v with
      | .ok d => .ok d
      | .error dErr => handler dErr
  match afterTry with
  | .error e => .error e
  | .ok d =>
    match pyIn "r" d with
    | .error _ => .error "TypeError: r-membership test on a non-container"
    | .ok true =>
      (match st.inputBufferPart with
       | bufferPart :: rest =>
           .ok (d, { inputBufferSize := st.inputBufferSize - bufferPart,
                     inputBufferPart := rest })
       | [] => .ok (d, st))
    | .ok false => .ok (d, st)

/-- MachIf_g2core.encode: out-of-band commands (the oobCmds parameter
stands for the base-class cycle-start and feed-hold getters, as in
MachIf_GRBL.encode) bypass accounting; otherwise, with bookkeeping on, the
byte length is added and appended to the FIFO. -/
def MachIf_g2core.encode (oobCmds : List String) (t : G2State) (data : String)
    (bookeeping : Bool) : String × G2State :=
  if oobCmds.contains data then (data, t)
  else if bookeeping then
    (data, { t with inputBufferSize := t.inputBufferSize + data.length,
                    inputBufferPart := t.inputBufferPart ++ [(data.length : Int)] })
  else (data, t)

/-- One operation of the buffer-accounting claim: an encode of an
arbitrary line with bookkeeping on, or a decode of an incoming line. -/
inductive GrblOp where
  | enc (data : String)
  | dec (line : String)

/-- The operations the buffer claim quantifies over: every bookkept
encode, and the decodes that free buffer space (acknowledgement and error
lines). -/
def GrblOp.allowed : GrblOp → Prop
  | .enc _ => True
  | .dec line =>
      reGrblMachineAck line.data = true ∨ (reGrblMachineError line.data).isSome = true

/-- Apply one operation to a GRBL adapter state. -/
def GrblOp.apply (oob : List String) (s : GrblState) : GrblOp → GrblState
  | .enc data => (MachIf_GRBL.encode oob s data true).2
  | .dec line => (MachIf_GRBL.decode s line).2

/-- Run a sequence of operations. -/
def runOps (oob : List String) : GrblState → List GrblOp → GrblState
  | s, [] => s
  | s, op :: ops => runOps oob (op.apply oob s) ops

/-- The buffer-accounting invariant the adapters maintain: every tracked
pending length is non-negative and their sum never exceeds the tracked
buffer usage. -/
def BufInv (s : GrblState) : Prop :=
  (∀ x ∈ s.inputBufferPart, 0 ≤ x) ∧ s.inputBufferPart.sum ≤ s.inputBufferSize

/-- Decode a list of lines in order, collecting the bytes-freed entry of
the f facet of each acknowledgement line. -/
def ackFreeds : GrblState → List String → List Int
  | _, [] => []
  | s, line :: ls =>
      let r := MachIf_GRBL.decode s line
      if reGrblMachineAck line.data then
        (match r.1.f with | some f => f.freed | none => 0) :: ackFreeds r.2 ls
      else ackFreeds r.2 ls

/-- The first n FIFO pops of a pending-length list: the head is freed
while the list lasts, zero afterwards. -/
def popSim : List Int → Nat → List Int
  | _, 0 => []
  | [], n + 1 => 0 :: popSim [] n
  | h :: t, n + 1 => h :: popSim t n

/-- The line rewriting MachIf_GRBL.encode applies when the status-poll
character is present: every occurrence removed, a single one appended. -/
def pollStripped (data : String) : String :=
  String.mk (data.data.filter (fun c => c != '?') ++ ['?'])

/-- The 53-character legacy status line of the spec scenario, which lacks
the FS segment the status grammar demands. -/
def legacyLine : String := "<Run,MPos:20.163,0.000,0.000,WPos:20.163,0.000,0.000>"

/-- A 128-character command line, one byte longer than the grbl buffer. -/
def longLine : String := String.mk (List.replicate 128 'a')

theorem status_none_of_head (c : Char) (t : List Char) (h : (c == '<') = false) :
    reGrblMachineStatus (c :: t) = none := by
  simp [reGrblMachineStatus, clsM, h]

theorem ack_false_of_head (c : Char) (t : List Char) (h : (c == 'o') = false) :
    reGrblMachineAck (c :: t) = false := by
  cases t with
  | nil => rfl
  | cons c2 t2 =>
    cases t2 with
    | nil => rfl
    | cons w rest => simp [reGrblMachineAck, h]

theorem error_none_of_head (c : Char) (t : List Char) (h : (c == 'e') = false) :
    reGrblMachineError (c :: t) = none := by
  have hd : "error:".data = ['e', 'r', 'r', 'o', 'r', ':'] := rfl
  simp [reGrblMachineError, hd, strM, clsM, h]

theorem version_none_of_head (c : Char) (t : List Char) (h : (c == '[') = false) :
    reGrblVersion (c :: t) = none := by
  have hd : "[VER:".data = ['[', 'V', 'E', 'R', ':'] := rfl
  simp [reGrblVersion, hd, strM, clsM, h]

theorem init_false_of_head (c : Char) (t : List Char) (h : (c == 'G') = false) :
    reGrblInitStr (c :: t) = false := by
  have hd : "Grbl".data = ['G', 'r', 'b', 'l'] := rfl
  simp [reGrblInitStr, hd, strM, clsM, h]

theorem status_head (l : List Char) (h : (reGrblMachineStatus l).isSome = true) :
    ∃ t, l = '<' :: t := by
  cases l with
  | nil => simp [reGrblMachineStatus, clsM] at h
  | cons c t =>
    cases hbe : (c == '<') with
    | true =>
      have hc : c = '<' := by simpa using hbe
      exact ⟨t, by rw [hc]⟩
    | false => rw [status_none_of_head c t hbe] at h; simp at h

theorem error_head (l : List Char) (h : (reGrblMachineError l).isSome = true) :
    ∃ t, l = 'e' :: t := by
  cases l with
  | nil =>
    have hd : "error:".data = ['e', 'r', 'r', 'o', 'r', ':'] := rfl
    simp [reGrblMachineError, hd, strM, clsM] at h
  | cons c t =>
    cases hbe : (c == 'e') with
    | true =>
      have hc : c = 'e' := by simpa using hbe
      exact ⟨t, by rw [hc]⟩
    | false => rw [error_none_of_head c t hbe] at h; simp at h

theorem ack_shape (l : List Char) (h : reGrblMachineAck l = true) :
    ∃ w rest, l = 'o' :: 'k' :: w :: rest ∧ (rest = [] ∨ rest = ['\n']) := by
  match l with
  | [] => exact absurd h (by simp [reGrblMachineAck])
  | [c1] => exact absurd h (by simp [reGrblMachineAck])
  | [c1, c2] => exact absurd h (by simp [reGrblMachineAck])
  | c1 :: c2 :: w :: rest =>
    simp only [reGrblMachineAck, Bool.and_eq_true, beq_iff_eq, Bool.or_eq_true] at h
    obtain ⟨⟨⟨h1, h2⟩, _⟩, h4⟩ := h
    exact ⟨w, rest, by rw [h1, h2], by simpa using h4⟩

theorem isPrefixOf_false_of_short :
    ∀ (pat l : List Char), l.length < pat.length → pat.isPrefixOf l = false := by
  intro pat
  induction pat with
  | nil => intro l h; simp at h
  | cons c cs ih =>
    intro l h
    cases l with
    | nil => rfl
    | cons d ds =>
      simp only [List.isPrefixOf_cons₂]
      have := ih ds (by simpa [Nat.succ_lt_succ_iff] using h)
      simp [this]

theorem containsSub_false_of_short :
    ∀ (l pat : List Char), l.length < pat.length → containsSub pat l = false := by
  intro l
  induction l with
  | nil =>
    intro pat h
    have : pat ≠ [] := by intro he; rw [he] at h; simp at h
    simp [containsSub, List.isEmpty_iff, this]
  | cons c t ih =>
    intro pat h
    have h1 : pat.isPrefixOf (c :: t) = false :=
      isPrefixOf_false_of_short pat (c :: t) h
    have h2 : containsSub pat t = false := ih pat (by simp at h ⊢; omega)
    simp [containsSub, h1, h2]

theorem decodeStatus_none (s : GrblState) (l : List Char)
    (h : reGrblMachineStatus l = none) : MachIf_GRBL.decodeStatus s l = ({}, s) := by
  simp [MachIf_GRBL.decodeStatus, h]

theorem decodeAck_false (ds : GrblDict × GrblState) (l : List Char)
    (h : reGrblMachineAck l = false) : MachIf_GRBL.decodeAck ds l = ds := by
  simp [MachIf_GRBL.decodeAck, h]

theorem decodeAlarm_false (ds : GrblDict × GrblState) (l : List Char)
    (h : containsSub "ALARM:".data l = false) : MachIf_GRBL.decodeAlarm ds l = ds := by
  simp [MachIf_GRBL.decodeAlarm, h]

theorem decodeError_none (ds : GrblDict × GrblState) (l : List Char)
    (h : reGrblMachineError l = none) : MachIf_GRBL.decodeError ds l = ds := by
  simp [MachIf_GRBL.decodeError, h]

theorem decodeVersion_none (ds : GrblDict × GrblState) (l : List Char)
    (h : reGrblVersion l = none) : MachIf_GRBL.decodeVersion ds l = ds := by
  simp [MachIf_GRBL.decodeVersion, h]

theorem decodeInit_false (ds : GrblDict × GrblState) (l : List Char)
    (h : reGrblInitStr l = false) : MachIf_GRBL.decodeInit ds l = ds := by
  simp [MachIf_GRBL.decodeInit, h]

theorem decodeAlarm_snd (ds : GrblDict × GrblState) (l : List Char) :
    (MachIf_GRBL.decodeAlarm ds l).2 = ds.2 := by
  unfold MachIf_GRBL.decodeAlarm; split <;> rfl

theorem decodeVersion_snd (ds : GrblDict × GrblState) (l : List Char) :
    (MachIf_GRBL.decodeVersion ds l).2 = ds.2 := by
  unfold MachIf_GRBL.decodeVersion; split <;> rfl

theorem decodeInit_fst (ds : GrblDict × GrblState) (l : List Char) :
    (MachIf_GRBL.decodeInit ds l).1 = ds.1 := by
  unfold MachIf_GRBL.decodeInit; split <;> rfl

theorem decodeInit_snd_size (ds : GrblDict × GrblState) (l : List Char) :
    (MachIf_GRBL.decodeInit ds l).2.inputBufferSize = ds.2.inputBufferSize := by
  unfold MachIf_GRBL.decodeInit; split <;> rfl

theorem decodeInit_snd_part (ds : GrblDict × GrblState) (l : List Char) :
    (MachIf_GRBL.decodeInit ds l).2.inputBufferPart = ds.2.inputBufferPart := by
  unfold MachIf_GRBL.decodeInit; split <;> rfl

theorem decode_ack_line (s : GrblState) (data : String)
    (h : reGrblMachineAck data.data = true) :
    MachIf_GRBL.decode s data =
      ({ sr := none, hasR := true, fb := none,
         f := some ⟨0, 0, s.inputBufferPart.headD 0, none⟩,
         ib := some (BUFFER_MAX_SIZE, s.inputBufferSize - s.inputBufferPart.headD 0) },
       { s with inputBufferSize := s.inputBufferSize - s.inputBufferPart.headD 0,
                inputBufferPart := s.inputBufferPart.tail }) := by
  obtain ⟨w, rest, hl, hrest⟩ := ack_shape data.data h
  have h6 : "ALARM:".data = ['A', 'L', 'A', 'R', 'M', ':'] := rfl
  have hst : reGrblMachineStatus data.data = none := by
    rw [hl]; exact status_none_of_head _ _ (by decide)
  have hal : containsSub "ALARM:".data data.data = false := by
    apply containsSub_false_of_short
    rw [hl, h6]
    rcases hrest with h4 | h4 <;> rw [h4] <;> simp
  have her : reGrblMachineError data.data = none := by
    rw [hl]; exact error_none_of_head _ _ (by decide)
  have hv : reGrblVersion data.data = none := by
    rw [hl]; exact version_none_of_head _ _ (by decide)
  have hi : reGrblInitStr data.data = false := by
    rw [hl]; exact init_false_of_head _ _ (by decide)
  unfold MachIf_GRBL.decode
  rw [decodeStatus_none s data.data hst]
  unfold MachIf_GRBL.decodeAck
  rw [if_pos h]
  rw [decodeAlarm_false _ _ hal, decodeError_none _ _ her, decodeVersion_none _ _ hv,
      decodeInit_false _ _ hi]

theorem decode_status_line (s : GrblState) (data : String)
    (h : (reGrblMachineStatus data.data).isSome = true) :
    (MachIf_GRBL.decode s data).2.inputBufferPart = s.inputBufferPart ∧
    (MachIf_GRBL.decode s data).2.inputBufferSize =
      (if 1 ≤ s.inputBufferSize then s.inputBufferSize - 1 else s.inputBufferSize) := by
  obtain ⟨t, hl⟩ := status_head data.data h
  obtain ⟨g, hg⟩ := Option.isSome_iff_exists.mp h
  obtain ⟨g1, g2, g3, g4, g5, g6⟩ := g
  have hack : reGrblMachineAck data.data = false := by
    rw [hl]; exact ack_false_of_head _ _ (by decide)
  have her : reGrblMachineError data.data = none := by
    rw [hl]; exact error_none_of_head _ _ (by decide)
  have h2 : (MachIf_GRBL.decodeStatus s data.data).2.inputBufferPart = s.inputBufferPart := by
    unfold MachIf_GRBL.decodeStatus
    rw [hg]
    by_cases h1 : 1 ≤ s.inputBufferSize <;> simp [h1]
  have h3 : (MachIf_GRBL.decodeStatus s data.data).2.inputBufferSize =
      (if 1 ≤ s.inputBufferSize then s.inputBufferSize - 1 else s.inputBufferSize) := by
    unfold MachIf_GRBL.decodeStatus
    rw [hg]
    by_cases h1 : 1 ≤ s.inputBufferSize <;> simp [h1]
  constructor
  · unfold MachIf_GRBL.decode
    rw [decodeInit_snd_part, decodeVersion_snd, decodeError_none _ _ her, decodeAlarm_snd,
        decodeAck_false _ _ hack, h2]
  · unfold MachIf_GRBL.decode
    rw [decodeInit_snd_size, decodeVersion_snd, decodeError_none _ _ her, decodeAlarm_snd,
        decodeAck_false _ _ hack, h3]

theorem decode_error_line (s : GrblState) (data : String) (g : String)
    (h : reGrblMachineError data.data = some g) :
    (MachIf_GRBL.decode s data).1.hasR = true ∧
    (MachIf_GRBL.decode s data).1.f =
      some ⟨0,
            (if pyIsdigit (pyStrip g) then (digitsVal (pyStrip g).data : Int) else -1),
            s.inputBufferPart.headD 0, some (pyStrip g)⟩ ∧
    (MachIf_GRBL.decode s data).2.inputBufferPart = s.inputBufferPart.tail ∧
    (MachIf_GRBL.decode s data).2.inputBufferSize =
      s.inputBufferSize - s.inputBufferPart.headD 0 := by
  obtain ⟨t, hl⟩ := error_head data.data (by rw [h]; rfl)
  have hst : reGrblMachineStatus data.data = none := by
    rw [hl]; exact status_none_of_head _ _ (by decide)
  have hack : reGrblMachineAck data.data = false := by
    rw [hl]; exact ack_false_of_head _ _ (by decide)
  have hv : reGrblVersion data.data = none := by
    rw [hl]; exact version_none_of_head _ _ (by decide)
  have herr : MachIf_GRBL.decodeError
      (MachIf_GRBL.decodeAlarm (({}, s) : GrblDict × GrblState) data.data) data.data =
      ({ (MachIf_GRBL.decodeAlarm (({}, s) : GrblDict × GrblState) data.data).1 with
           hasR := true,
           f := some ⟨0,
              (if pyIsdigit (pyStrip g) then (digitsVal (pyStrip g).data : Int) else -1),
              s.inputBufferPart.headD 0, some (pyStrip g)⟩,
           ib := some (BUFFER_MAX_SIZE, s.inputBufferSize - s.inputBufferPart.headD 0) },
       { s with inputBufferSize := s.inputBufferSize - s.inputBufferPart.headD 0,
                inputBufferPart := s.inputBufferPart.tail }) := by
    unfold MachIf_GRBL.decodeError
    rw [h]
    rw [decodeAlarm_snd]
  unfold MachIf_GRBL.decode
  rw [decodeStatus_none s data.data hst, decodeAck_false _ _ hack, herr,
      decodeVersion_none _ _ hv]
  refine ⟨?_, ?_, ?_, ?_⟩
  · rw [decodeInit_fst]
  · rw [decodeInit_fst]
  · rw [decodeInit_snd_part]
  · rw [decodeInit_snd_size]

theorem ne_poll_of_not_contains (data : String) (hq : data.data.contains '?' = false) :
    (data == "?") = false := by
  cases hbe : (data == "?") with
  | false => rfl
  | true =>
    have : data = "?" := by simpa using hbe
    rw [this] at hq
    simp at hq

theorem encode_plain (oob : List String) (s : GrblState) (data : String)
    (h0 : data.length ≠ 0) (hq : data.data.contains '?' = false)
    (hoob : oob.contains data = false) :
    MachIf_GRBL.encode oob s data true =
      (data, { s with inputBufferSize := s.inputBufferSize + data.length,
                      inputBufferPart := s.inputBufferPart ++ [(data.length : Int)] }) := by
  have hq2 : data ≠ "?" := by simpa using ne_poll_of_not_contains data hq
  have hq' : ¬ ('?' ∈ data.data) := by simpa using hq
  have hoob' : ¬ (data ∈ oob) := by simpa using hoob
  unfold MachIf_GRBL.encode
  rw [if_neg h0]
  simp [hq', hq2, hoob']

theorem BufInv.addSize (s : GrblState) (q : Int) (h : BufInv s) (hqn : 0 ≤ q) :
    BufInv { s with inputBufferSize := s.inputBufferSize + q } := by
  refine ⟨h.1, ?_⟩
  have h2 := h.2
  simp only []
  omega

theorem BufInv.push (s : GrblState) (L : Int) (h : BufInv s) (hL : 0 ≤ L) :
    BufInv { s with inputBufferSize := s.inputBufferSize + L,
                    inputBufferPart := s.inputBufferPart ++ [L] } := by
  constructor
  · intro x hx
    rcases List.mem_append.mp hx with hx | hx
    · exact h.1 x hx
    · rw [List.mem_singleton.mp hx]; exact hL
  · have h2 := h.2
    simp only [List.sum_append, List.sum_cons, List.sum_nil]
    omega

theorem BufInv.pop (s : GrblState) (h : BufInv s) :
    BufInv { s with inputBufferSize := s.inputBufferSize - s.inputBufferPart.headD 0,
                    inputBufferPart := s.inputBufferPart.tail } := by
  obtain ⟨h1, h2⟩ := h
  cases hp : s.inputBufferPart with
  | nil =>
    rw [hp] at h2
    simp only [hp, List.headD_nil, List.tail_nil]
    exact ⟨by intro x hx; simp at hx, by simp at h2 ⊢; omega⟩
  | cons a t =>
    rw [hp] at h1 h2
    simp only [hp, List.headD_cons, List.tail_cons]
    constructor
    · intro x hx; exact h1 x (List.mem_cons_of_mem a hx)
    · simp only [List.sum_cons] at h2
      simp only []
      omega

theorem encode_BufInv (oob : List String) (s : GrblState) (data : String) (b : Bool)
    (h : BufInv s) : BufInv (MachIf_GRBL.encode oob s data b).2 := by
  have hpush : ∀ s1 : GrblState, BufInv s1 → ∀ L : Int, 0 ≤ L →
      BufInv { s1 with inputBufferSize := s1.inputBufferSize + L,
                       inputBufferPart := s1.inputBufferPart ++ [L] } :=
    fun s1 h1 L hL => BufInv.push s1 L h1 hL
  have hadd : BufInv { s with inputBufferSize := s.inputBufferSize + 1 } :=
    BufInv.addSize s 1 h (by omega)
  unfold MachIf_GRBL.encode
  by_cases h0 : data.length = 0
  · rw [if_pos h0]; exact h
  rw [if_neg h0]
  dsimp only
  split_ifs <;>
    first
      | exact h
      | exact hadd
      | exact hpush _ hadd _ (Int.natCast_nonneg _)
      | exact hpush _ h _ (Int.natCast_nonneg _)

theorem decode_allowed_BufInv (s : GrblState) (line : String)
    (ha : reGrblMachineAck line.data = true ∨ (reGrblMachineError line.data).isSome = true)
    (h : BufInv s) : BufInv (MachIf_GRBL.decode s line).2 := by
  rcases ha with ha | ha
  · rw [decode_ack_line s line ha]
    exact BufInv.pop s h
  · obtain ⟨g, hg⟩ := Option.isSome_iff_exists.mp ha
    obtain ⟨_, _, h3, h4⟩ := decode_error_line s line g hg
    have := BufInv.pop s h
    rw [← h3, ← h4] at this
    exact this

theorem op_BufInv (oob : List String) (s : GrblState) (op : GrblOp)
    (ha : op.allowed) (h : BufInv s) : BufInv (op.apply oob s) := by
  cases op with
  | enc data => exact encode_BufInv oob s data true h
  | dec line => exact decode_allowed_BufInv s line ha h

theorem runOps_BufInv (oob : List String) :
    ∀ (ops : List GrblOp) (s : GrblState), (∀ op ∈ ops, op.allowed) → BufInv s →
      BufInv (runOps oob s ops) := by
  intro ops
  induction ops with
  | nil => intro s _ h; exact h
  | cons op ops ih =>
    intro s ha h
    exact ih (op.apply oob s) (fun o ho => ha o (List.mem_cons_of_mem op ho))
      (op_BufInv oob s op (ha op (List.mem_cons_self op ops)) h)

theorem BufInv_nonneg (s : GrblState) (h : BufInv s) : 0 ≤ s.inputBufferSize :=
  le_trans (List.sum_nonneg h.1) h.2

theorem ackFreeds_eq :
    ∀ (ls : List String) (s : GrblState),
      (∀ l ∈ ls, reGrblMachineAck l.data = true ∨ (reGrblMachineStatus l.data).isSome = true) →
      ackFreeds s ls = popSim s.inputBufferPart (ls.countP fun l => reGrblMachineAck l.data) := by
  intro ls
  induction ls with
  | nil => intro s _; simp [ackFreeds, popSim]
  | cons l ls ih =>
    intro s hall
    have hrest : ∀ x ∈ ls, reGrblMachineAck x.data = true ∨ (reGrblMachineStatus x.data).isSome = true :=
      fun x hx => hall x (List.mem_cons_of_mem l hx)
    by_cases hack : reGrblMachineAck l.data = true
    · rw [List.countP_cons]
      simp only [hack, if_true]
      simp only [ackFreeds]
      rw [if_pos hack, decode_ack_line s l hack]
      simp only []
      rw [ih _ hrest]
      cases hp : s.inputBufferPart with
      | nil => simp [hp, popSim]
      | cons a t => simp [hp, popSim]
    · have hb : reGrblMachineAck l.data = false := by
        cases hx : reGrblMachineAck l.data
        · rfl
        · exact absurd hx hack
      have hst : (reGrblMachineStatus l.data).isSome = true :=
        (hall l (List.mem_cons_self l ls)).resolve_left hack
      rw [List.countP_cons]
      simp only [hb, if_false]
      simp only [ackFreeds]
      rw [if_neg (by simp [hb])]
      rw [ih _ hrest, (decode_status_line s l hst).1]
      simp

/-- Claim C3.  The claim says decode of either adapter never raises to the
caller.  The GRBL decoder indeed cannot raise (its embedding is a total
function), but the g2core decoder can: on the line 3 — a valid JSON
scalar — the membership test r-in-dataDict inside the try block raises
TypeError, the bare except catches it, and the same membership test after
the handler, which runs unprotected, raises TypeError out of decode.
This theorem evaluates the embedded decoder at that failing input. -/
theorem c3_decode_totality_failing_input :
    MachIf_g2core.decode g2InitState "3" =
      Except.error "TypeError: r-membership test on a non-container" := by
  rfl

/-- Claim C4, counterexample.  The claim names Homing for the g2core stat code 9,
but the translation chain of MachIf_g2core.decode writes the misspelt
string Homeming, so code 9 does not map to the status the claim names. -/
theorem c4_stat_table_counterexample :
    g2StatName 9 = some "Homeming" ∧ ¬ g2StatName 9 = some "Homing" := by
  constructor
  · rfl
  · intro h
    simp [g2StatName] at h

/-- Claim C4, as amended: every g2core stat code 0-13 maps exactly as the source
table does (with the source spelling Homeming at 9, and 5 and 8 both
giving Run); every token of the GRBL status table maps to its distinct
numeric code; and every other token maps to the unknown code, without any
possibility of raising (the lookup is total). -/
theorem c4_stat_table_amended :
    (g2StatName 0 = some "Init" ∧ g2StatName 1 = some "Ready" ∧
     g2StatName 2 = some "Alarm" ∧ g2StatName 3 = some "Prog Stop" ∧
     g2StatName 4 = some "Prog End" ∧ g2StatName 5 = some "Run" ∧
     g2StatName 6 = some "Hold" ∧ g2StatName 7 = some "Probe" ∧
     g2StatName 8 = some "Run" ∧ g2StatName 9 = some "Homeming" ∧
     g2StatName 10 = some "Jog" ∧ g2StatName 11 = some "InterLock" ∧
     g2StatName 12 = some "Shutdown" ∧ g2StatName 13 = some "Panic") ∧
    (stat_dict_get "Idle" = GRBL_STATE_IDLE ∧ stat_dict_get "Run" = GRBL_STATE_RUN ∧
     stat_dict_get "Hold" = GRBL_STATE_HOLD ∧ stat_dict_get "Jog" = GRBL_STATE_JOG ∧
     stat_dict_get "Alarm" = GRBL_STATE_ALRARM ∧ stat_dict_get "Door" = GRBL_STATE_DOOR ∧
     stat_dict_get "Check" = GRBL_STATE_CHECK ∧ stat_dict_get "Home" = GRBL_STATE_HOME ∧
     stat_dict_get "Sleep" = GRBL_STATE_SLEEP ∧ stat_dict_get "Stop" = GRBL_STATE_STOP) ∧
    List.Pairwise (fun a b => a ≠ b)
      [GRBL_STATE_IDLE, GRBL_STATE_RUN, GRBL_STATE_HOLD, GRBL_STATE_JOG,
       GRBL_STATE_ALRARM, GRBL_STATE_DOOR, GRBL_STATE_CHECK, GRBL_STATE_HOME,
       GRBL_STATE_SLEEP, GRBL_STATE_STOP] ∧
    (∀ s : String,
       s ∉ ["Idle", "Run", "Hold", "Jog", "Alarm", "Door", "Check", "Home", "Sleep", "Stop"] →
       stat_dict_get s = GRBL_STATE_UKNOWN) := by
  refine ⟨by decide, by decide, by decide, ?_⟩
  intro s hs
  simp only [List.mem_cons, List.mem_singleton, not_or] at hs
  obtain ⟨n1, n2, n3, n4, n5, n6, n7, n8, n9, n10⟩ := hs
  simp [stat_dict_get, n1, n2, n3, n4, n5, n6, n7, n8, n9, n10]

/-- Claim C4, witness: the amended theorem applied to the concrete unrecognized
token Foo. -/
theorem c4_stat_table_amended_witness : stat_dict_get "Foo" = GRBL_STATE_UKNOWN :=
  c4_stat_table_amended.2.2.2 "Foo" (by decide)

/-- Claim C6.  The legacy-form status line without the FS segment does not match
the status grammar, and decode of it produces the empty (unrecognized)
event with no status facet and an unchanged state. -/
theorem c6_legacy_status_line_unrecognized :
    reGrblMachineStatus legacyLine.data = none ∧
    MachIf_GRBL.decode grblInitState legacyLine = ({}, grblInitState) := by
  constructor
  · decide
  · decide

/-- Claim C1, counterexample.  The claim bounds bufferUsed by bufferCapacity for
every sequence of bookkept encodes and buffer-freeing decodes, but encode
performs no capacity check at all: a single bookkept encode of a
128-character line from the initial state drives bufferUsed to 128, above
the 127-byte capacity (the okToSend gate lives with the caller, not in
encode). -/
theorem c1_buffer_bound_counterexample :
    (MachIf_GRBL.encode ["~", "!"] grblInitState longLine true).2.inputBufferSize = 128 ∧
    ¬ (MachIf_GRBL.encode ["~", "!"] grblInitState longLine true).2.inputBufferSize
        ≤ BUFFER_MAX_SIZE := by
  constructor
  · decide
  · decide

/-- Claim C1, as amended: over every sequence of bookkept encodes and decodes of
acknowledgement or error lines from the initial state, bufferUsed stays
non-negative at every intermediate point, and a buffer-freeing decode on
an empty pending queue frees zero bytes (state unchanged, queue still
empty); the upper capacity bound is not maintained by these operations
(see the counterexample). -/
theorem c1_buffer_accounting_amended :
    (∀ (oob : List String) (ops pre suf : List GrblOp),
        (∀ op ∈ ops, op.allowed) → ops = pre ++ suf →
        0 ≤ (runOps oob grblInitState pre).inputBufferSize) ∧
    (∀ (s : GrblState) (line : String), s.inputBufferPart = [] →
        (reGrblMachineAck line.data = true ∨ (reGrblMachineError line.data).isSome = true) →
        (MachIf_GRBL.decode s line).2.inputBufferSize = s.inputBufferSize ∧
        (MachIf_GRBL.decode s line).2.inputBufferPart = []) := by
  constructor
  · intro oob ops pre suf hall heq
    have hpre : ∀ op ∈ pre, op.allowed := by
      intro op ho
      exact hall op (heq ▸ List.mem_append_left suf ho)
    have hinv : BufInv grblInitState := by
      constructor
      · intro x hx; simp [grblInitState] at hx
      · simp [grblInitState]
    exact BufInv_nonneg _ (runOps_BufInv oob pre grblInitState hpre hinv)
  · intro s line hp ha
    rcases ha with ha | ha
    · rw [decode_ack_line s line ha]
      simp [hp]
    · obtain ⟨g, hg⟩ := Option.isSome_iff_exists.mp ha
      obtain ⟨_, _, h3, h4⟩ := decode_error_line s line g hg
      rw [h3, h4, hp]
      simp

/-- Claim C1, witness: the amended theorem applied to the concrete run encode of
G0 X10 newline followed by decode of the ok line, and to an ack decode on
a state with an empty queue. -/
theorem c1_buffer_accounting_witness :
    0 ≤ (runOps ["~", "!"] grblInitState
          [GrblOp.enc "G0 X10\n", GrblOp.dec "ok\n"]).inputBufferSize ∧
    ((MachIf_GRBL.decode grblInitState "ok\n").2.inputBufferSize =
        grblInitState.inputBufferSize ∧
     (MachIf_GRBL.decode grblInitState "ok\n").2.inputBufferPart = []) := by
  constructor
  · refine c1_buffer_accounting_amended.1 ["~", "!"]
      [GrblOp.enc "G0 X10\n", GrblOp.dec "ok\n"]
      [GrblOp.enc "G0 X10\n", GrblOp.dec "ok\n"] [] ?_ (by simp)
    intro op ho
    rcases List.mem_cons.mp ho with rfl | ho2
    · exact trivial
    rcases List.mem_cons.mp ho2 with rfl | ho3
    · exact Or.inl (by decide)
    · simp at ho3
  · exact c1_buffer_accounting_amended.2 grblInitState "ok\n" rfl (Or.inl (by decide))

/-- Claim C2.  Acknowledgements free pending byte lengths in send order: after
bookkept encodes of three plain commands of lengths 5, 3 and 7 from the
initial state, decoding any line sequence of status-report lines with
exactly three acknowledgement lines interleaved reports freed lengths 5,
then 3, then 7; and the scenario: encoding the 7-byte G0 X10 line at
capacity 127 sets bufferUsed to 7, and decoding the ok line produces the
acknowledgement facet freeing 7 and returns bufferUsed to 0. -/
theorem c2_fifo_ack_order :
    (∀ (oob : List String) (c1 c2 c3 : String),
       c1.length = 5 → c2.length = 3 → c3.length = 7 →
       c1.data.contains '?' = false → c2.data.contains '?' = false →
       c3.data.contains '?' = false →
       oob.contains c1 = false → oob.contains c2 = false → oob.contains c3 = false →
       ∀ ls : List String,
         (∀ l ∈ ls,
            reGrblMachineAck l.data = true ∨ (reGrblMachineStatus l.data).isSome = true) →
         (ls.countP fun l => reGrblMachineAck l.data) = 3 →
         ackFreeds
           (MachIf_GRBL.encode oob
             ((MachIf_GRBL.encode oob
               ((MachIf_GRBL.encode oob grblInitState c1 true).2) c2 true).2) c3 true).2
           ls = [5, 3, 7]) ∧
    ((MachIf_GRBL.encode ["~", "!"] grblInitState "G0 X10\n" true).2.inputBufferSize = 7 ∧
     (MachIf_GRBL.decode (MachIf_GRBL.encode ["~", "!"] grblInitState "G0 X10\n" true).2
        "ok\n").1.hasR = true ∧
     (MachIf_GRBL.decode (MachIf_GRBL.encode ["~", "!"] grblInitState "G0 X10\n" true).2
        "ok\n").1.f = some ⟨0, 0, 7, none⟩ ∧
     (MachIf_GRBL.decode (MachIf_GRBL.encode ["~", "!"] grblInitState "G0 X10\n" true).2
        "ok\n").2.inputBufferSize = 0) := by
  constructor
  · intro oob c1 c2 c3 h1 h2 h3 q1 q2 q3 o1 o2 o3 ls hall hcount
    rw [encode_plain oob grblInitState c1 (by omega) q1 o1]
    rw [encode_plain oob _ c2 (by omega) q2 o2]
    rw [encode_plain oob _ c3 (by omega) q3 o3]
    rw [ackFreeds_eq ls _ hall, hcount]
    simp only [grblInitState, h1, h2, h3]
    decide
  · refine ⟨by decide, by decide, by decide, by decide⟩

/-- Claim C2, witness: the FIFO part applied to concrete commands of lengths 5,
3 and 7 and a concrete interleaving of two status-report lines with three
acknowledgement lines. -/
theorem c2_fifo_ack_order_witness :
    ackFreeds
      (MachIf_GRBL.encode ["~", "!"]
        ((MachIf_GRBL.encode ["~", "!"]
          ((MachIf_GRBL.encode ["~", "!"] grblInitState "aaaaa" true).2) "bbb" true).2)
        "ccccccc" true).2
      ["<Hold:0,WPos:20.163,0.000,20.000|FS:0,0>", "ok\n", "ok \n",
       "<Run,WPos:1.0,2.0,3.0|FS:10,0>", "ok\n"] = [5, 3, 7] := by
  refine c2_fifo_ack_order.1 ["~", "!"] "aaaaa" "bbb" "ccccccc"
    (by decide) (by decide) (by decide) (by decide) (by decide) (by decide)
    (by decide) (by decide) (by decide) _ (by decide) (by decide)

/-- Claim C5.  When a line to be encoded contains the status-poll character,
every occurrence is stripped and exactly one is appended at the end, and
with bookkeeping on this adds exactly one extra byte to bufferUsed on top
of the ordinary data accounting of the rewritten line (which is skipped
only when the rewritten line is the bare poll or an out-of-band
command). -/
theorem c5_status_poll_encode :
    ∀ (oob : List String) (s : GrblState) (data : String),
      data.data.contains '?' = true →
      MachIf_GRBL.encode oob s data true =
        (pollStripped data,
         if (pollStripped data == "?") || oob.contains (pollStripped data) then
           { s with inputBufferSize := s.inputBufferSize + 1 }
         else
           { s with inputBufferSize := s.inputBufferSize + 1 + (pollStripped data).length,
                    inputBufferPart :=
                      s.inputBufferPart ++ [((pollStripped data).length : Int)] }) := by
  intro oob s data hq
  have h0 : data.length ≠ 0 := by
    intro hlen
    have hnil : data.data = [] := List.length_eq_zero.mp hlen
    rw [hnil] at hq
    simp at hq
  unfold MachIf_GRBL.encode pollStripped
  rw [if_neg h0]
  dsimp only
  rw [hq]
  cases hc1 : (String.mk (data.data.filter (fun c => c != '?') ++ ['?']) == "?") with
  | true => simp [hc1]
  | false =>
    cases hc2 : oob.contains (String.mk (data.data.filter (fun c => c != '?') ++ ['?'])) with
    | true =>
      have hc2' : String.mk (data.data.filter (fun c => c != '?') ++ ['?']) ∈ oob := by
        simpa using hc2
      simp [hc1, hc2']
    | false =>
      have hc2' : String.mk (data.data.filter (fun c => c != '?') ++ ['?']) ∉ oob := by
        simpa using hc2
      simp [hc1, hc2', Int.add_assoc]

/-- Claim C5, witness: encoding G0 X10?-newline (which contains the poll
character mid-line) rewrites it to G0 X10-newline-poll and books one poll
byte plus the eight data bytes. -/
theorem c5_status_poll_encode_witness :
    MachIf_GRBL.encode ["~", "!"] grblInitState "G0 X10?\n" true =
      ("G0 X10\n?", ⟨9, [8], GRBL_STATE_UKNOWN, false⟩) := by
  rw [c5_status_poll_encode ["~", "!"] grblInitState "G0 X10?\n" (by decide)]
  decide

/-- Claim C7.  Encoding the cycle-start or the feed-hold command (an element of
the out-of-band command list of the base class), in either adapter, with
or without bookkeeping, changes neither bufferUsed nor the pending-length
queue.  The hypothesis that the command does not contain the GRBL poll
character reflects the real control commands, which are single control
characters. -/
theorem c7_oob_commands_bypass :
    ∀ (oob : List String) (s : GrblState) (t : G2State) (b : Bool) (c : String),
      oob.contains c = true → c.data.contains '?' = false →
      MachIf_GRBL.encode oob s c b = (c, s) ∧
      MachIf_g2core.encode oob t c b = (c, t) := by
  intro oob s t b c hc hq
  constructor
  · unfold MachIf_GRBL.encode
    by_cases h0 : c.length = 0
    · rw [if_pos h0]
    rw [if_neg h0]
    dsimp only
    rw [hq]
    have hq2 : (c == "?") = false := ne_poll_of_not_contains c hq
    have hc' : c ∈ oob := by simpa using hc
    simp [hq2, hc']
  · unfold MachIf_g2core.encode
    have hc' : c ∈ oob := by simpa using hc
    simp [hc']

/-- Claim C7, witness: the theorem applied to the conventional GRBL control
characters tilde (cycle-start) and bang (feed-hold). -/
theorem c7_oob_commands_bypass_witness :
    MachIf_GRBL.encode ["~", "!"] grblInitState "~" true = ("~", grblInitState) ∧
    MachIf_g2core.encode ["~", "!"] g2InitState "!" true = ("!", g2InitState) := by
  constructor
  · exact (c7_oob_commands_bypass ["~", "!"] grblInitState g2InitState true "~"
      (by decide) (by decide)).1
  · exact (c7_oob_commands_bypass ["~", "!"] grblInitState g2InitState true "!"
      (by decide) (by decide)).2

/-- Claim C8.  Every line matching the error grammar produces the error facet
[0, code, freed, message]: the code is the integer value when the stripped
captured text is numeric and minus one otherwise, the message is the
stripped captured text, and exactly one pending length is popped (zero
bytes freed when the queue is empty) and subtracted from bufferUsed. -/
theorem c8_error_response :
    ∀ (s : GrblState) (data g : String),
      reGrblMachineError data.data = some g →
      (MachIf_GRBL.decode s data).1.hasR = true ∧
      (MachIf_GRBL.decode s data).1.f =
        some ⟨0,
              (if pyIsdigit (pyStrip g) then (digitsVal (pyStrip g).data : Int) else -1),
              s.inputBufferPart.headD 0, some (pyStrip g)⟩ ∧
      (MachIf_GRBL.decode s data).2.inputBufferPart = s.inputBufferPart.tail ∧
      (MachIf_GRBL.decode s data).2.inputBufferSize =
        s.inputBufferSize - s.inputBufferPart.headD 0 :=
  fun s data g h => decode_error_line s data g h

/-- Claim C8, witness: decoding error:20-newline on a state with one pending
4-byte command yields code 20, message 20, frees 4 bytes. -/
theorem c8_error_response_witness :
    (MachIf_GRBL.decode ⟨10, [4], GRBL_STATE_UKNOWN, false⟩ "error:20\n").1.hasR = true ∧
    (MachIf_GRBL.decode ⟨10, [4], GRBL_STATE_UKNOWN, false⟩ "error:20\n").1.f =
      some ⟨0, 20, 4, some "20"⟩ ∧
    (MachIf_GRBL.decode ⟨10, [4], GRBL_STATE_UKNOWN, false⟩ "error:20\n").2.inputBufferPart
      = [] ∧
    (MachIf_GRBL.decode ⟨10, [4], GRBL_STATE_UKNOWN, false⟩ "error:20\n").2.inputBufferSize
      = 6 := by
  obtain ⟨h1, h2, h3, h4⟩ :=
    c8_error_response ⟨10, [4], GRBL_STATE_UKNOWN, false⟩ "error:20\n" "20" (by decide)
  refine ⟨h1, ?_, by simpa using h3, by simpa using h4⟩
  rw [h2]
  decide

/-- Claim C9.  On every line that fails JSON parsing the g2core decoder falls
back to the plain-text acknowledgement grammar: a line matching the
trailing ok-gt pattern is recognized as an acknowledgement (a response
facet is installed and the oldest pending length, if any, is popped and
subtracted), and a line matching neither grammar yields the empty dict
with the state unchanged; neither case is an error. -/
theorem c9_json_failure_fallback :
    ∀ (st : G2State) (data : String),
      jsonLoads data = none →
      MachIf_g2core.decode st data =
        (if reG2CoreMachineAck data.data then
           Except.ok (JVal.obj [("r", g2AckRVal)],
             match st.inputBufferPart with
             | p :: rest =>
                 { inputBufferSize := st.inputBufferSize - p, inputBufferPart := rest }
             | [] => st)
         else Except.ok (JVal.obj [], st)) := by
  intro st data h
  unfold MachIf_g2core.decode
  rw [h]
  cases hack : reG2CoreMachineAck data.data with
  | true =>
    cases hp : st.inputBufferPart with
    | nil => rfl
    | cons p rest => rfl
  | false => rfl

/-- Claim C9, witness: the theorem applied to a non-JSON acknowledgement line
(which pops the pending 4-byte length) and to a non-JSON, non-matching
line (which leaves the state untouched). -/
theorem c9_json_failure_fallback_witness :
    MachIf_g2core.decode ⟨9, [4]⟩ "xx ok> \n" =
      Except.ok (JVal.obj [("r", g2AckRVal)],
        { inputBufferSize := 5, inputBufferPart := [] }) ∧
    MachIf_g2core.decode ⟨9, [4]⟩ "zzz" =
      Except.ok (JVal.obj [], ⟨9, [4]⟩) := by
  constructor
  · rw [c9_json_failure_fallback ⟨9, [4]⟩ "xx ok> \n" (by rfl)]
    rfl
  · rw [c9_json_failure_fallback ⟨9, [4]⟩ "zzz" (by rfl)]
    rfl

/-- Claim C10.  Decoding any line matching the status-report grammar leaves the
pending-length queue untouched and decreases bufferUsed by exactly one
when at least one byte is tracked, leaving it unchanged (zero bytes
consumed) otherwise: the poll byte is settled outside the FIFO. -/
theorem c10_status_decode_buffer :
    ∀ (s : GrblState) (data : String),
      (reGrblMachineStatus data.data).isSome = true →
      (MachIf_GRBL.decode s data).2.inputBufferPart = s.inputBufferPart ∧
      (MachIf_GRBL.decode s data).2.inputBufferSize =
        (if 1 ≤ s.inputBufferSize then s.inputBufferSize - 1 else s.inputBufferSize) :=
  fun s data h => decode_status_line s data h

/-- Claim C10, witness: a status line on a state with five tracked bytes and one
pending 7-byte command keeps the queue and drops bufferUsed to four. -/
theorem c10_status_decode_buffer_witness :
    (MachIf_GRBL.decode ⟨5, [7], GRBL_STATE_UKNOWN, false⟩
       "<Hold:0,WPos:20.163,0.000,20.000|FS:0,0>").2.inputBufferPart = [7] ∧
    (MachIf_GRBL.decode ⟨5, [7], GRBL_STATE_UKNOWN, false⟩
       "<Hold:0,WPos:20.163,0.000,20.000|FS:0,0>").2.inputBufferSize = 4 := by
  obtain ⟨h1, h2⟩ := c10_status_decode_buffer ⟨5, [7], GRBL_STATE_UKNOWN, false⟩
    "<Hold:0,WPos:20.163,0.000,20.000|FS:0,0>" (by decide)
  refine ⟨h1, ?_⟩
  rw [h2]
  decide
